import Mathlib

/-!
Verification of the OCR pipeline of `PythonProject2OCR` against its natural
language specification.

The development shallowly embeds the Python sources:
  * `yandex_ocr.py`   — the main pipeline (preprocessing, OCR client with
    response parsing, input discovery, per-file processing, merged output);
  * `yaclapi3.py`     — the script variant whose middle `ocr_image` carries the
    429 retry/backoff loop;
  * `api.py`          — the OAuth-to-IAM exchange helper `get_iam_token`.

Pure functions become Lean functions; the single HTTP request of a client is
modelled by an explicit `HttpAttempt`/response argument; file effects are
returned explicitly (the size written back to disk).  External library
primitives that the source merely calls (PIL resampling, JPEG encoding) appear
as parameters of the theorems, constrained only by the properties the library
documents.
-/

/-! ## Python string helpers -/

/-- Characters removed by Python's `str.strip()` with no argument. -/
def isPySpace (c : Char) : Bool :=
  c == ' ' || c == '\t' || c == '\n' || c == '\r' ||
  c == Char.ofNat 11 || c == Char.ofNat 12

/-- Python `s.strip()`: drop leading and trailing whitespace. -/
def pyStrip (s : String) : String :=
  String.mk (((s.toList.dropWhile isPySpace).reverse.dropWhile isPySpace).reverse)

/-! ## Vision API response shape

`yandex_ocr.py` traverses `results → results → (textDetection|textAnnotation)
→ pages → blocks → lines → words → text`.  Every key can be absent, which the
Python code probes with `dict.get` / `in`; an `Option` field models exactly
that.  (`textAnnot` embeds the JSON key `textAnnotation`.) -/

structure VWord where
  text : Option String
deriving DecidableEq

structure VLine where
  words : Option (List VWord)
deriving DecidableEq

structure VBlock where
  lines : Option (List VLine)
deriving DecidableEq

structure VPage where
  blocks : Option (List VBlock)
deriving DecidableEq

structure VTextDetection where
  pages : Option (List VPage)
deriving DecidableEq

structure VError where
  code : Option String
  message : Option String
deriving DecidableEq

structure VItem where
  error : Option VError
  textDetection : Option VTextDetection
  textAnnot : Option VTextDetection
deriving DecidableEq

structure VSpec where
  results : Option (List VItem)
deriving DecidableEq

structure OcrResponse where
  results : Option (List VSpec)
deriving DecidableEq

/-! ## `yandex_ocr._extract_text_from_pages` (lines 75–84) -/

/-- `_extract_text_from_pages`: collect `" ".join(words)` for every line that
has at least one word with non-empty text, then `"\n".join(...).strip()`.
The inner list comprehension filters on `w.get("text")` truthiness first. -/
def extractTextLines (pages : List VPage) : List String :=
  pages.foldl (fun acc page =>
    (page.blocks.getD []).foldl (fun acc2 block =>
      (block.lines.getD []).foldl (fun acc3 line =>
        let words := (((line.words.getD []).filter
          (fun w => w.text.getD "" ≠ "")).map (fun w => w.text.getD ""))
        if words ≠ [] then acc3 ++ [String.intercalate " " words] else acc3)
        acc2) acc) []

def extractTextFromPages (pages : List VPage) : String :=
  pyStrip (String.intercalate "\n" (extractTextLines pages))

/-! ## `yandex_ocr.ocr_image` response traversal (lines 163–205) -/

/-- The `pages` local of the item loop: `item["textDetection"].get("pages", [])`
when the key `textDetection` is present, else the same for `textAnnotation`,
else `None`. -/
def itemPages (item : VItem) : Option (List VPage) :=
  match item.textDetection with
  | some td => some (td.pages.getD [])
  | none =>
    match item.textAnnot with
    | some ta => some (ta.pages.getD [])
    | none => none

/-- Text parts contributed by one inner item: an item carrying an `error` key
is logged and skipped; otherwise a truthy (non-`None`, non-empty) `pages` list
contributes its extracted text when that text is non-empty. -/
def itemTextParts (item : VItem) : List String :=
  if item.error.isSome then []
  else
    match itemPages item with
    | some ps =>
      if ps ≠ [] then
        (let tp := extractTextFromPages ps
         if tp ≠ "" then [tp] else [])
      else []
    | none => []

/-- Text parts contributed by one outer spec: an empty or missing inner
`results` list is logged and skipped (`continue`). -/
def specTextParts (s : VSpec) : List String :=
  let inner := s.results.getD []
  if inner = [] then []
  else inner.foldl (fun acc it => acc ++ itemTextParts it) []

/-- All parts accumulated into `all_text_parts` over the outer loop. -/
def responseTextParts (r : OcrResponse) : List String :=
  (r.results.getD []).foldl (fun acc s => acc ++ specTextParts s) []

/-- The traversal of `ocr_image` from `root_results = result.get("results", [])`
down to the final return: missing or empty root results short-circuit to
`"[no results]"`; otherwise the non-empty parts are newline-joined, stripped,
and an empty outcome is replaced by `"[no text]"`. -/
def parseOcrResponse (r : OcrResponse) : String :=
  let rootResults := r.results.getD []
  if rootResults = [] then "[no results]"
  else
    let allTextParts := responseTextParts r
    let finalText := pyStrip (String.intercalate "\n"
      (allTextParts.filter (fun p => p ≠ "")))
    if finalText = "" then "[no text]" else finalText

/-! ## Size-reduction loop of `ocr_image` (lines 109–120)

`img.save(buf, "JPEG", quality=quality)` is abstracted by a function
`enc : Nat → Nat` giving the encoded byte count at each quality; the image
itself never changes inside the loop. -/

/-- The `while True` loop: break when the encoded size fits in 1,000,000 bytes
or the quality has dropped to 30, else decrease quality by 5. Returns the
quality at which the loop stops. -/
def reduceQuality (enc : Nat → Nat) (q : Nat) : Nat :=
  if h : enc q ≤ 1000000 ∨ q ≤ 30 then q
  else reduceQuality enc (q - 5)
termination_by q
decreasing_by
  simp only [not_or, not_le] at h
  omega

/-! ## `yandex_ocr._build_auth_headers` (lines 87–93) -/

/-- Python truthiness of an optional string: `None` and `""` are falsy. -/
def optTruthy : Option String → Bool
  | some s => !(s == "")
  | none => false

/-- `_build_auth_headers`: a Bearer header when an IAM token is truthy, else an
Api-Key header when an API key is truthy, else no headers and mode `"none"`. -/
def buildAuthHeaders (iamToken apiKey : Option String) :
    List (String × String) × String :=
  if optTruthy iamToken then
    ([("Authorization", "Bearer " ++ iamToken.getD ""),
      ("Content-Type", "application/json")], "iam")
  else if optTruthy apiKey then
    ([("Authorization", "Api-Key " ++ apiKey.getD ""),
      ("Content-Type", "application/json")], "api_key")
  else ([], "none")

/-! ## `yandex_ocr.ocr_image` (lines 96–213) -/

/-- Outcome of the single `requests.post` issued by `ocr_image`:
`fail` is a raised transport exception, otherwise a status code together with
the JSON body (`none` when `resp.json()` would raise). -/
inductive HttpAttempt where
  | fail : HttpAttempt
  | ok : Nat → Option OcrResponse → HttpAttempt
deriving DecidableEq

structure OcrInput where
  iamToken : Option String
  apiKey : Option String
  folderId : String
  /-- `path.stat().st_size` of the image file when `ocr_image` starts. -/
  fileSize : Nat
  /-- Byte size of the JPEG re-encoding of the image at a given quality. -/
  encodeAt : Nat → Nat
  attempt : HttpAttempt

/-- `ocr_image`, returning the string it returns together with the size of the
image file on disk when it returns.  Control flow follows the source: auth
check, folder-id check, conditional size reduction (rewriting the file), the
single HTTP request, status check, JSON check, then response traversal. -/
def ocrImage (inp : OcrInput) : String × Nat :=
  let hm := buildAuthHeaders inp.iamToken inp.apiKey
  if hm.2 = "none" then ("[auth error: no credentials]", inp.fileSize)
  else if inp.folderId = "" then ("[config error: no folder id]", inp.fileSize)
  else
    let newSize :=
      if inp.fileSize > 1000000 then inp.encodeAt (reduceQuality inp.encodeAt 85)
      else inp.fileSize
    match inp.attempt with
    | HttpAttempt.fail => ("[request error]", newSize)
    | HttpAttempt.ok st body =>
      if st ≠ 200 then ("[error " ++ toString st ++ "]", newSize)
      else
        match body with
        | none => ("[response parse error]", newSize)
        | some r => (parseOcrResponse r, newSize)

/-! ## `api.get_iam_token` (api.py, lines 21–50) -/

/-- Outcome of the `requests.post` to the IAM endpoint: a raised transport
exception (`requests.RequestException`), or a status code plus the JSON body as
a flat string map (`none` when the body is not JSON; with requests ≥ 2.27 that
`JSONDecodeError` is a `RequestException` and is swallowed too). -/
inductive IamAttempt where
  | netError : IamAttempt
  | resp : Nat → Option (List (String × String)) → IamAttempt
deriving DecidableEq

/-- `dict.get(key)` over a JSON object modelled as an association list. -/
def lookupStr (kvs : List (String × String)) (k : String) : Option String :=
  (kvs.find? (fun p => p.1 == k)).map (fun p => p.2)

/-- `token = oauth_token or os.getenv("YANDEX_OAUTH_TOKEN", "").strip()`:
the argument when truthy, else the stripped environment variable. -/
def effectiveOauth (oauthToken : Option String) (envToken : String) : String :=
  match oauthToken with
  | some t => if t = "" then pyStrip envToken else t
  | none => pyStrip envToken

/-- `get_iam_token`: an empty effective token short-circuits to `""` before
any request.  `resp.raise_for_status()` raises exactly for 4xx/5xx statuses;
every `RequestException` is caught and converted to `""` (with requests ≥ 2.27
a JSON decode failure is a `RequestException` too).  On a parsed body the
result is `body.get("iamToken", "")`. -/
def getIamToken (oauthToken : Option String) (envToken : String)
    (att : IamAttempt) : String :=
  let token := effectiveOauth oauthToken envToken
  if token = "" then ""
  else
    match att with
    | IamAttempt.netError => ""
    | IamAttempt.resp st body =>
      if 400 ≤ st ∧ st < 600 then ""
      else
        match body with
        | none => ""
        | some kvs => (lookupStr kvs "iamToken").getD ""

/-! ## `yaclapi3.ocr_image` retry loop (yaclapi3.py, lines 162–192)

The variant script retries on 429 with `delay = 101` doubling after each
sleep, for `max_retries = 5` attempts.  Each attempt's `requests.post` outcome
is supplied as `resps i`; `none` is a raised transport exception (this variant
does not catch it). -/

structure HttpResp where
  status : Nat
  body : Option OcrResponse
deriving DecidableEq

/-- How the `for attempt in range(max_retries)` loop is left. -/
inductive YaExit where
  /-- `return f"[ошибка {status}]"` on a non-429, non-200 status. -/
  | errorStatus : Nat → YaExit
  /-- The loop ended (break on 200, or attempts exhausted) with `resp` bound
  to this response; execution continues at `result = resp.json()`. -/
  | parsed : HttpResp → YaExit
  /-- An exception propagated out of `requests.post`. -/
  | raised : YaExit
  /-- `resp` never assigned (only reachable with zero attempts). -/
  | noResp : YaExit
deriving DecidableEq

/-- `resps i` has status 429. -/
def is429 (o : Option HttpResp) : Bool :=
  match o with
  | some r => r.status == 429
  | none => false

/-- The retry loop.  `i` is the index of the next attempt, `fuel` the number of
loop iterations left, `delay` the current backoff, `last` the response bound by
the previous iteration.  Returns the exit mode and the list of backoff sleeps
performed (the fixed `time.sleep(2)` after a 200 is not a backoff sleep and is
not recorded). -/
def yaLoop (resps : Nat → Option HttpResp) :
    Nat → Nat → Nat → Option HttpResp → YaExit × List Nat
  | _, 0, _, last =>
    (match last with
     | some r => (YaExit.parsed r, [])
     | none => (YaExit.noResp, []))
  | i, fuel + 1, delay, _ =>
    match resps i with
    | none => (YaExit.raised, [])
    | some r =>
      if r.status = 429 then
        let rest := yaLoop resps (i + 1) fuel (delay * 2) (some r)
        (rest.1, delay :: rest.2)
      else if r.status ≠ 200 then (YaExit.errorStatus r.status, [])
      else (YaExit.parsed r, [])

/-- The loop as called: `max_retries = 5`, `delay = 101`. -/
def yaOcr (resps : Nat → Option HttpResp) : YaExit × List Nat :=
  yaLoop resps 0 5 101 none

/-- Number of consecutive 429 responses starting at attempt `i`, capped by the
remaining fuel. -/
def count429 (resps : Nat → Option HttpResp) : Nat → Nat → Nat
  | _, 0 => 0
  | i, fuel + 1 =>
    if is429 (resps i) then count429 resps (i + 1) fuel + 1 else 0

/-- The direct indexing
`result['results'][0]['results'][0]['textDetection']['pages']` of the variant:
any missing key or empty list raises, caught as `"[ошибка извлечения текста]"`;
the per-page traversal appends `' '.join(words) + '\n'` per line (no word
filtering, no line-emptiness check) and finally strips. -/
def yaPagesText (pages : List VPage) : String :=
  pages.foldl (fun acc page =>
    (page.blocks.getD []).foldl (fun a2 block =>
      (block.lines.getD []).foldl (fun a3 line =>
        a3 ++ String.intercalate " "
          ((line.words.getD []).map (fun w => w.text.getD "")) ++ "\n")
        a2) acc) ""

def yaParse (r : OcrResponse) : String :=
  match r.results with
  | none => "[ошибка извлечения текста]"
  | some [] => "[ошибка извлечения текста]"
  | some (s0 :: _) =>
    match s0.results with
    | none => "[ошибка извлечения текста]"
    | some [] => "[ошибка извлечения текста]"
    | some (it0 :: _) =>
      match it0.textDetection with
      | none => "[ошибка извлечения текста]"
      | some td =>
        match td.pages with
        | none => "[ошибка извлечения текста]"
        | some pages => pyStrip (yaPagesText pages)

/-- Result of the whole variant `ocr_image`: the loop, then
`result = resp.json()` (outside any `try`, so a non-JSON body raises), then the
guarded extraction. -/
inductive YaResult where
  | text : String → YaResult
  | raised : YaResult
deriving DecidableEq

def yaOcrImage (resps : Nat → Option HttpResp) : YaResult × List Nat :=
  let loopOut := yaOcr resps
  match loopOut.1 with
  | YaExit.errorStatus c => (YaResult.text ("[ошибка " ++ toString c ++ "]"), loopOut.2)
  | YaExit.raised => (YaResult.raised, loopOut.2)
  | YaExit.noResp => (YaResult.raised, loopOut.2)
  | YaExit.parsed r =>
    match r.body with
    | none => (YaResult.raised, loopOut.2)
    | some j => (YaResult.text (yaParse j), loopOut.2)

/-! ## `yandex_ocr.preprocess_image` (lines 44–72)

A PIL image is modelled by its dimensions, its `mode` string and a pixel
accessor (the single-channel value once the mode is `"L"`).  PIL primitives the
source calls but does not define — `resize(..., LANCZOS)`, `convert("L")`,
`ImageEnhance.*.enhance(f)` (float interpolation), `save(..., "JPEG")` — are
parameters packaged in `PILOps`; their documented shape properties appear as
hypotheses of the theorem.  `img.point(f, "L")` is pure pixel mapping and is
modelled concretely. -/

structure PILImage where
  width : Nat
  height : Nat
  mode : String
  px : Nat → Nat → Nat

structure PILOps where
  /-- `img.resize((w, h), Image.LANCZOS)`. -/
  resizeLanczos : PILImage → Nat → Nat → PILImage
  /-- `img.convert("L")`. -/
  convertL : PILImage → PILImage
  /-- `ImageEnhance.Contrast(img).enhance(f)`. -/
  enhanceContrast : PILImage → ℚ → PILImage
  /-- `ImageEnhance.Sharpness(img).enhance(f)`. -/
  enhanceSharpness : PILImage → ℚ → PILImage
  /-- Bytes of `img.save(..., "JPEG", quality=q)`. -/
  jpegEncode : PILImage → Nat → List Nat

/-- `img.point(fn, "L")`: apply `fn` to every pixel, setting mode `"L"`. -/
def pointL (img : PILImage) (f : Nat → Nat) : PILImage :=
  ⟨img.width, img.height, "L", fun x y => f (img.px x y)⟩

/-- Stage 1: `if max(img.size) < 1000: img = img.resize((2w, 2h), LANCZOS)`. -/
def ppResized (ops : PILOps) (img : PILImage) : PILImage :=
  if max img.width img.height < 1000 then
    ops.resizeLanczos img (img.width * 2) (img.height * 2)
  else img

/-- Stages 2–4: grayscale, contrast 1.8, sharpness 2.0. -/
def ppEnhanced (ops : PILOps) (img : PILImage) : PILImage :=
  ops.enhanceSharpness
    (ops.enhanceContrast (ops.convertL (ppResized ops img)) (1.8 : ℚ)) (2 : ℚ)

/-- Stage 5: the hard threshold `lambda x: 0 if x < 140 else 255` in mode "L". -/
def ppFinal (ops : PILOps) (img : PILImage) : PILImage :=
  pointL (ppEnhanced ops img) (fun x => if x < 140 then 0 else 255)

/-- `preprocess_image`: the full pipeline, then
`tmp_path = tmp_dir / f"{path.stem}.jpg"` and `img.save(tmp_path, "JPEG",
quality=90)`.  Returns the path written and the bytes saved there. -/
def preprocessImage (ops : PILOps) (img : PILImage) (tmpDir stem : String) :
    String × List Nat :=
  (tmpDir ++ "/" ++ stem ++ ".jpg", ops.jpegEncode (ppFinal ops img) 90)

/-! ## `yandex_ocr.process_file` (lines 250–290)

The rasterized page images are given as a list (for a PDF, one per page in
`convert_from_path` order; otherwise the single preprocessed input image), and
the OCR call is a function from page to returned string. -/

/-- An entry of a generated DOCX document. -/
inductive DocItem where
  | heading : Nat → String → DocItem
  | para : String → DocItem
deriving DecidableEq

/-- The page loop of `process_file`, with `i` the 1-based counter of
`enumerate(images, start=1)`: appends `text or "[no text]"` to `page_texts` and
a "Page i" heading plus that paragraph to the document. -/
def processPages (ocr : α → String) : List α → Nat → List String × List DocItem
  | [], _ => ([], [])
  | img :: rest, i =>
    let text := ocr img
    let t := if text = "" then "[no text]" else text
    let tail := processPages ocr rest (i + 1)
    (t :: tail.1,
     DocItem.heading 2 ("Page " ++ toString i) :: DocItem.para t :: tail.2)

/-- `process_file` output: the returned `page_texts` and the saved document
body. -/
def processFile (images : List α) (ocr : α → String) :
    List String × List DocItem :=
  processPages ocr images 1

/-! ## `yandex_ocr.save_combined_results` (lines 293–325) -/

/-- Per-file inner loop of the DOCX/TXT aggregation: for
`enumerate(texts, start=1)`, a "Page n" level-2 heading and paragraph, and a
`f"Page {n}\n{text}\n"` TXT line. -/
def mergedPages : List String → Nat → List DocItem × List String
  | [], _ => ([], [])
  | t :: ts, n =>
    let tail := mergedPages ts (n + 1)
    (DocItem.heading 2 ("Page " ++ toString n) :: DocItem.para t :: tail.1,
     ("Page " ++ toString n ++ "\n" ++ t ++ "\n") :: tail.2)

/-- The DOCX items and TXT lines accumulated over `all_results`: per file a
level-1 heading with the file name, the file-name TXT line, then the pages. -/
def mergedDocTxt : List (String × List String) → List DocItem × List String
  | [] => ([], [])
  | (name, texts) :: rest =>
    let pages := mergedPages texts 1
    let tail := mergedDocTxt rest
    (DocItem.heading 1 name :: pages.1 ++ tail.1,
     name :: pages.2 ++ tail.2)

/-- CSV rows for one file: `writer.writerow([file_path.name, page_num, text])`
for `enumerate(texts, start=1)`; the page number is written as its decimal
string. -/
def pageRows (name : String) : List String → Nat → List (List String)
  | [], _ => []
  | t :: ts, n => [name, toString n, t] :: pageRows name ts (n + 1)

/-- All CSV data rows, file blocks in `all_results` order. -/
def csvDataRows : List (String × List String) → List (List String)
  | [] => []
  | (name, texts) :: rest => pageRows name texts 1 ++ csvDataRows rest

/-- The CSV written by `save_combined_results`: the header row
`["file", "page", "text"]` followed by one row per page across all files. -/
def saveCombinedCsv (allResults : List (String × List String)) :
    List (List String) :=
  ["file", "page", "text"] :: csvDataRows allResults

/-- `save_combined_results`: merged DOCX items, merged TXT lines, merged CSV
rows. -/
def saveCombinedResults (allResults : List (String × List String)) :
    (List DocItem × List String) × List (List String) :=
  (mergedDocTxt allResults, saveCombinedCsv allResults)

/-! ## `yandex_ocr.resolve_input` / `find_input_files` (lines 216–247)

A path is its list of components.  The file system is the list of all existing
paths (with an is-file flag) in enumeration order — `rglob` results are
reported in this order — together with the current working directory. -/

abbrev FPath := List String

structure FS where
  entries : List (FPath × Bool)
  cwd : FPath

/-- `p` lies strictly under directory `d` (a proper descendant). -/
def strictUnder : FPath → FPath → Bool
  | [], [] => false
  | [], _ :: _ => true
  | _ :: _, [] => false
  | a :: d, b :: p => a == b && strictUnder d p

def FS.existsPath (fs : FS) (p : FPath) : Bool :=
  fs.entries.any (fun e => e.1 == p)

def FS.isFile (fs : FS) (p : FPath) : Bool :=
  fs.entries.any (fun e => e.1 == p && e.2)

/-- `Path.cwd().rglob(name)` for a plain name (no glob metacharacters, which
the pipeline's file names do not contain): entries anywhere under the working
directory whose last component is `name`, in enumeration order. -/
def FS.rglobName (fs : FS) (name : String) : List FPath :=
  (fs.entries.filter (fun e =>
    strictUnder fs.cwd e.1 && (e.1.getLast? == some name))).map (fun e => e.1)

/-- All entries strictly under directory `d` (`p.rglob("*")`). -/
def FS.underDir (fs : FS) (d : FPath) : List (FPath × Bool) :=
  fs.entries.filter (fun e => strictUnder d e.1)

/-- `PurePath.suffix`: the substring of the last component from its last dot,
empty unless that dot is at position `0 < i < len - 1`. -/
def pySuffix (name : String) : String :=
  let cs := name.toList
  match ((cs.enum.filter (fun ci => ci.2 == '.')).map (fun ci => ci.1)).getLast? with
  | some i => if 0 < i ∧ i < cs.length - 1 then String.mk (cs.drop i) else ""
  | none => ""

/-- Python `str.lower()` for the ASCII extension strings the locator
compares: lower-case every character. -/
def pyLower (t : String) : String :=
  String.mk (t.toList.map Char.toLower)

/-- The allow-list of `find_input_files`. -/
def allowedExts : List String :=
  [".pdf", ".png", ".jpg", ".jpeg", ".tif", ".tiff", ".bmp"]

/-- `resolve_input`: an existing path is returned as is; a non-existing single
component is searched for under the working directory and the first match
returned; otherwise `FileNotFoundError`. -/
def resolveInput (fs : FS) (p : FPath) : Except String FPath :=
  if fs.existsPath p then Except.ok p
  else if p.length = 1 then
    match fs.rglobName (String.intercalate "" p) with
    | m :: _ => Except.ok m
    | [] => Except.error "Input path not found"
  else Except.error "Input path not found"

/-- `find_input_files`: a resolved file is a singleton; a resolved directory is
recursively enumerated, keeping entries whose lower-cased suffix is in the
allow-list (note the Python filter applies to every entry `p.rglob("*")`
yields, directories included). -/
def findInputFiles (fs : FS) (p : FPath) : Except String (List FPath) :=
  match resolveInput fs p with
  | Except.error e => Except.error e
  | Except.ok rp =>
    if fs.isFile rp then Except.ok [rp]
    else Except.ok (((fs.underDir rp).filter (fun e =>
      allowedExts.contains (pyLower (pySuffix ((e.1.getLast?).getD ""))))).map
        (fun e => e.1))

/-! ## `yandex_ocr.main` batch loop (lines 415–459) -/

/-- `_resolve_credentials` (lines 396–412): explicit IAM token wins, then the
explicit API key, then an IAM token obtained via OAuth when non-empty. -/
def resolveCredentials (iamArg apiArg : Option String) (iamViaOauth : String) :
    Option String × Option String :=
  if optTruthy iamArg then (iamArg, none)
  else if optTruthy apiArg then (none, apiArg)
  else if iamViaOauth ≠ "" then (some iamViaOauth, none)
  else (none, none)

/-- Outcome of a `main` invocation. -/
inductive RunOutcome where
  /-- `raise SystemExit` before the file loop started. -/
  | fatalConfig : String → RunOutcome
  /-- The loop ran to the end; `attempted` lists every file the loop called
  `process_file` on, `combined` the accumulated merge results. -/
  | completed : List FPath → List (FPath × List String) → RunOutcome
deriving DecidableEq

/-- The `for idx, file in enumerate(files, ...)` loop: `process_file` failures
are caught (`except Exception: logging.exception(...)`) and the loop moves on;
successes are appended to `combined_results` when `--merge-output` is set.
Returns the files attempted and the accumulated results. -/
def batchLoop (proc : FPath → Except String (List String)) (merge : Bool) :
    List FPath → List FPath × List (FPath × List String)
  | [] => ([], [])
  | f :: rest =>
    let tail := batchLoop proc merge rest
    match proc f with
    | Except.ok texts =>
      (f :: tail.1, if merge then (f, texts) :: tail.2 else tail.2)
    | Except.error _ => (f :: tail.1, tail.2)

/-- `main` after argument collection, with the per-file work abstracted as
`proc` (an `Except.error` is an exception escaping `process_file`).  Checks in
source order: credentials, input resolution, an empty file list, the folder id;
each failure is a `SystemExit` before any file-level work. -/
def mainRun (creds : Option String × Option String) (fs : FS)
    (inputPath : FPath) (folderId : String) (merge : Bool)
    (proc : FPath → Except String (List String)) : RunOutcome :=
  match creds with
  | (none, none) => RunOutcome.fatalConfig "no credentials"
  | _ =>
    match findInputFiles fs inputPath with
    | Except.error e => RunOutcome.fatalConfig e
    | Except.ok files =>
      if files = [] then RunOutcome.fatalConfig "No input files found"
      else if folderId = "" then RunOutcome.fatalConfig "Folder ID is required"
      else
        let loopOut := batchLoop proc merge files
        RunOutcome.completed loopOut.1 loopOut.2

/-! ## Helper lemmas -/

/-- A left fold that appends `f x` for each element is the concatenation of the
per-element contributions. -/
theorem foldl_append_eq (f : α → List β) :
    ∀ (l : List α) (init : List β),
      l.foldl (fun acc x => acc ++ f x) init = init ++ (l.map f).flatten := by
  intro l
  induction l with
  | nil => intro init; simp
  | cons a t ih =>
    intro init
    simp only [List.foldl_cons, List.map_cons, List.flatten_cons]
    rw [ih, List.append_assoc]

theorem specTextParts_eq (inner : List VItem) :
    specTextParts ⟨some inner⟩ = (inner.map itemTextParts).flatten := by
  unfold specTextParts
  rcases inner with _ | ⟨a, t⟩
  · simp
  · simp only [Option.getD_some]
    rw [if_neg (by simp)]
    simpa using foldl_append_eq itemTextParts (a :: t) []

/-! ## Claim C1 — response parser tolerance -/

/-- C1, counterexample: when the top-level `results` key is missing, no text
is extracted at all, yet the parser returns the marker `"[no results]"`, not
the claimed `"[no text]"`. -/
theorem c1_counterexample :
    parseOcrResponse ⟨none⟩ = "[no results]" ∧ "[no results]" ≠ "[no text]" :=
  ⟨rfl, by decide⟩

/-- C1 (amended): the response parser is a total function (so no missing key
raises); it never returns the empty string; with the top-level `results` key
missing or empty it returns `"[no results]"`; with root results present but no
text extracted it returns `"[no text]"`; an inner item carrying an `error`
object contributes nothing, and removing such an item from a spec does not
change the parts the spec contributes (siblings are unaffected). -/
theorem c1_parser_tolerance (r : OcrResponse) :
    parseOcrResponse r ≠ ""
    ∧ (r.results.getD [] = [] → parseOcrResponse r = "[no results]")
    ∧ (r.results.getD [] ≠ [] → responseTextParts r = [] →
        parseOcrResponse r = "[no text]")
    ∧ (∀ item : VItem, item.error.isSome → itemTextParts item = [])
    ∧ (∀ (pre post : List VItem) (item : VItem), item.error.isSome →
        specTextParts ⟨some (pre ++ item :: post)⟩ =
          specTextParts ⟨some (pre ++ post)⟩) := by
  refine ⟨?_, ?_, ?_, ?_, ?_⟩
  · unfold parseOcrResponse
    dsimp only
    split_ifs with h1 h2 <;> simp_all
  · intro h
    unfold parseOcrResponse
    dsimp only
    rw [if_pos h]
  · intro h1 h2
    unfold parseOcrResponse
    dsimp only
    rw [if_neg h1, h2]
    simp [pyStrip, String.intercalate]
  · intro item h
    unfold itemTextParts
    rw [if_pos h]
  · intro pre post item h
    have hskip : itemTextParts item = [] := by
      unfold itemTextParts; rw [if_pos h]
    rw [specTextParts_eq, specTextParts_eq]
    simp [hskip]

/-- C1, witness: a response with one spec holding one `error` item and one
sibling item whose `textDetection` has no pages extracts nothing and returns
`"[no text]"`. -/
theorem c1_witness :
    parseOcrResponse
      ⟨some [⟨some [⟨some ⟨none, none⟩, none, none⟩,
                    ⟨none, some ⟨some []⟩, none⟩]⟩]⟩ = "[no text]" :=
  (c1_parser_tolerance _).2.2.1 (by decide) (by decide)

/-! ## Claim C2 — retry policy -/

theorem yaLoop_waits (resps : Nat → Option HttpResp) :
    ∀ (fuel i delay : Nat) (last : Option HttpResp),
      (yaLoop resps i fuel delay last).2 =
        (List.range (count429 resps i fuel)).map (fun j => delay * 2 ^ j) := by
  intro fuel
  induction fuel with
  | zero => intro i delay last; cases last <;> simp [yaLoop, count429]
  | succ f ih =>
    intro i delay last
    unfold yaLoop count429
    cases h : resps i with
    | none => simp [is429, h]
    | some r =>
      by_cases hs : r.status = 429
      · dsimp only
        rw [if_pos hs]
        have hcount : is429 (some r) = true := by simp [is429, hs]
        rw [hcount, if_pos rfl]
        dsimp only
        rw [ih (i + 1) (delay * 2) (some r)]
        rw [List.range_succ_eq_map]
        simp only [List.map_cons, List.map_map, pow_zero, mul_one]
        congr 1
        apply List.map_congr_left
        intro j _
        simp only [Function.comp_apply, pow_succ]
        ring
      · have hcount : is429 (some r) = false := by simp [is429, hs]
        dsimp only
        rw [if_neg hs, hcount]
        split_ifs <;> simp_all

theorem yaLoop_first_non429 (resps : Nat → Option HttpResp) :
    ∀ (j fuel i delay : Nat) (last : Option HttpResp) (r : HttpResp),
      j < fuel →
      (∀ m, m < j → is429 (resps (i + m)) = true) →
      resps (i + j) = some r → r.status ≠ 429 →
      (yaLoop resps i fuel delay last).1 =
        if r.status ≠ 200 then YaExit.errorStatus r.status
        else YaExit.parsed r := by
  intro j
  induction j with
  | zero =>
    intro fuel i delay last r hlt _ hr hs
    obtain ⟨f, rfl⟩ : ∃ f, fuel = f + 1 := ⟨fuel - 1, by omega⟩
    rw [Nat.add_zero] at hr
    unfold yaLoop
    rw [hr]
    simp only [if_neg hs]
    split_ifs <;> simp_all
  | succ j ih =>
    intro fuel i delay last r hlt hall hr hs
    obtain ⟨f, rfl⟩ : ∃ f, fuel = f + 1 := ⟨fuel - 1, by omega⟩
    have h0 : is429 (resps i) = true := by
      have := hall 0 (by omega)
      simpa using this
    obtain ⟨r0, hr0, hs0⟩ : ∃ r0, resps i = some r0 ∧ r0.status = 429 := by
      cases hro : resps i with
      | none => rw [hro] at h0; simp [is429] at h0
      | some r0 =>
        rw [hro] at h0; simp only [is429, beq_iff_eq] at h0; exact ⟨r0, rfl, h0⟩
    unfold yaLoop
    rw [hr0]
    dsimp only
    rw [if_pos hs0]
    exact ih f (i + 1) (delay * 2) (some r0) r (by omega)
      (fun m hm => by
        have := hall (m + 1) (by omega)
        rwa [show i + (m + 1) = i + 1 + m by omega] at this)
      (by rwa [show i + 1 + j = i + (j + 1) by omega]) hs

theorem yaLoop_exhaust (resps : Nat → Option HttpResp) :
    ∀ (fuel i delay : Nat) (last : Option HttpResp) (rl : HttpResp),
      0 < fuel →
      (∀ m, m < fuel → is429 (resps (i + m)) = true) →
      resps (i + fuel - 1) = some rl →
      (yaLoop resps i fuel delay last).1 = YaExit.parsed rl := by
  intro fuel
  induction fuel with
  | zero => intro i delay last rl h; omega
  | succ f ih =>
    intro i delay last rl _ hall hrl
    have h0 : is429 (resps i) = true := by
      have := hall 0 (by omega)
      simpa using this
    obtain ⟨r0, hr0, hs0⟩ : ∃ r0, resps i = some r0 ∧ r0.status = 429 := by
      cases hro : resps i with
      | none => rw [hro] at h0; simp [is429] at h0
      | some r0 =>
        rw [hro] at h0; simp only [is429, beq_iff_eq] at h0; exact ⟨r0, rfl, h0⟩
    unfold yaLoop
    rw [hr0]
    dsimp only
    rw [if_pos hs0]
    rcases Nat.eq_zero_or_pos f with hf | hf
    · subst hf
      have : rl = r0 := by
        rw [show i + 1 - 1 = i + 0 by omega, Nat.add_zero] at hrl
        rw [hr0] at hrl
        exact (Option.some_inj.mp hrl).symm
      subst this
      simp [yaLoop]
    · exact ih (i + 1) (delay * 2) (some r0) rl hf
        (fun m hm => by
          have := hall (m + 1) (by omega)
          rwa [show i + (m + 1) = i + 1 + m by omega] at this)
        (by rwa [show i + 1 + f - 1 = i + (f + 1) - 1 by omega])

theorem yaLoop_transport (resps : Nat → Option HttpResp) :
    ∀ (j fuel i delay : Nat) (last : Option HttpResp),
      j < fuel →
      (∀ m, m < j → is429 (resps (i + m)) = true) →
      resps (i + j) = none →
      (yaLoop resps i fuel delay last).1 = YaExit.raised ∧
        (yaLoop resps i fuel delay last).2.length = j := by
  intro j
  induction j with
  | zero =>
    intro fuel i delay last hlt _ hr
    obtain ⟨f, rfl⟩ : ∃ f, fuel = f + 1 := ⟨fuel - 1, by omega⟩
    rw [Nat.add_zero] at hr
    unfold yaLoop
    rw [hr]
    exact ⟨rfl, rfl⟩
  | succ j ih =>
    intro fuel i delay last hlt hall hr
    obtain ⟨f, rfl⟩ : ∃ f, fuel = f + 1 := ⟨fuel - 1, by omega⟩
    have h0 : is429 (resps i) = true := by
      have := hall 0 (by omega)
      simpa using this
    obtain ⟨r0, hr0, hs0⟩ : ∃ r0, resps i = some r0 ∧ r0.status = 429 := by
      cases hro : resps i with
      | none => rw [hro] at h0; simp [is429] at h0
      | some r0 =>
        rw [hro] at h0; simp only [is429, beq_iff_eq] at h0; exact ⟨r0, rfl, h0⟩
    have step := ih f (i + 1) (delay * 2) (some r0) (by omega)
      (fun m hm => by
        have := hall (m + 1) (by omega)
        rwa [show i + (m + 1) = i + 1 + m by omega] at this)
      (by rwa [show i + 1 + j = i + (j + 1) by omega])
    unfold yaLoop
    rw [hr0]
    dsimp only
    rw [if_pos hs0]
    exact ⟨step.1, by simp [step.2]⟩

/-- C2, counterexample: the client of `yandex_ocr.py` (the function the claim
cites) does not retry on 429 at all: with valid credentials and folder id, a
single rate-limit response makes it return the immediate failure marker
`"[error 429]"` — even though the response body would have parsed — exactly as
for any other non-200 status. -/
theorem c2_counterexample :
    (ocrImage ⟨some "token", none, "folder", 500, (fun _ => 0),
        HttpAttempt.ok 429 (some ⟨some [⟨some [⟨none,
          some ⟨some [⟨some [⟨some [⟨some [⟨some "hi"⟩]⟩]⟩]⟩]⟩, none⟩]⟩]⟩)⟩).1
      = "[error 429]"
    ∧ (ocrImage ⟨some "token", none, "folder", 500, (fun _ => 0),
        HttpAttempt.ok 500 none⟩).1 = "[error 500]" := by
  constructor <;> rfl

/-- C2 (amended): the client in `yandex_ocr.py` performs no retries — any
non-200 status, 429 included, yields the immediate failure marker
`"[error N]"`, and a transport failure yields `"[request error]"` immediately.
The variant client in `yaclapi3.py` retries only on 429: its backoff sleeps
are `101 * 2^j` (doubling, hence monotone), one per consecutive leading 429 and
at most 5; the first non-429 response stops the loop — a non-200 fails
immediately without retry, a 200 proceeds to parsing; after five consecutive
429s the last 429 response is parsed like a success (an extraction-failure
marker results only when its body lacks the expected keys); a transport-level
failure propagates immediately, with no further attempt. -/
theorem c2_retry_policy (inp : OcrInput) (resps : Nat → Option HttpResp) :
    ((buildAuthHeaders inp.iamToken inp.apiKey).2 ≠ "none" → inp.folderId ≠ "" →
      (∀ st b, inp.attempt = HttpAttempt.ok st b → st ≠ 200 →
          (ocrImage inp).1 = "[error " ++ toString st ++ "]")
      ∧ (inp.attempt = HttpAttempt.fail → (ocrImage inp).1 = "[request error]"))
    ∧ (yaOcr resps).2 =
        (List.range (count429 resps 0 5)).map (fun j => 101 * 2 ^ j)
    ∧ (∀ i w w', (yaOcr resps).2[i]? = some w → (yaOcr resps).2[i + 1]? = some w' →
        w' = 2 * w ∧ w ≤ w')
    ∧ (∀ j r, j < 5 → (∀ m, m < j → is429 (resps m) = true) →
        resps j = some r → r.status ≠ 429 →
        (r.status ≠ 200 → (yaOcr resps).1 = YaExit.errorStatus r.status)
        ∧ (r.status = 200 → (yaOcr resps).1 = YaExit.parsed r))
    ∧ ((∀ m, m < 5 → is429 (resps m) = true) →
        ∀ r4, resps 4 = some r4 →
          (yaOcr resps).1 = YaExit.parsed r4
          ∧ (∀ j, r4.body = some j →
              (yaOcrImage resps).1 = YaResult.text (yaParse j)))
    ∧ (∀ j, j < 5 → (∀ m, m < j → is429 (resps m) = true) → resps j = none →
        (yaOcr resps).1 = YaExit.raised ∧ (yaOcr resps).2.length = j) := by
  refine ⟨?_, ?_, ?_, ?_, ?_, ?_⟩
  · intro hmode hfid
    constructor
    · intro st b hatt hst
      unfold ocrImage
      rw [if_neg hmode, if_neg hfid, hatt]
      dsimp only
      rw [if_pos hst]
    · intro hatt
      unfold ocrImage
      rw [if_neg hmode, if_neg hfid, hatt]
  · exact yaLoop_waits resps 5 0 101 none
  · intro i w w' hw hw'
    have hwaits := yaLoop_waits resps 5 0 101 none
    unfold yaOcr at hw hw'
    rw [hwaits] at hw hw'
    have hlt : i + 1 < count429 resps 0 5 := by
      by_contra hge
      rw [List.getElem?_eq_none (by simpa using le_of_not_lt hge)] at hw'
      exact Option.noConfusion hw'
    rw [List.getElem?_map, List.getElem?_range (by omega)] at hw
    rw [List.getElem?_map, List.getElem?_range hlt] at hw'
    simp only [Option.map_some'] at hw hw'
    obtain rfl := Option.some_inj.mp hw
    obtain rfl := Option.some_inj.mp hw'
    have h2w : (101 : Nat) * 2 ^ (i + 1) = 2 * (101 * 2 ^ i) := by
      rw [pow_succ]; ring
    refine ⟨h2w, ?_⟩
    rw [h2w]
    exact Nat.le_mul_of_pos_left _ (by norm_num)
  · intro j r hj hall hr hs
    constructor
    · intro h200
      have := yaLoop_first_non429 resps j 5 0 101 none r hj
        (fun m hm => by simpa using hall m hm) (by simpa using hr) hs
      unfold yaOcr
      rw [this, if_pos h200]
    · intro h200
      have := yaLoop_first_non429 resps j 5 0 101 none r hj
        (fun m hm => by simpa using hall m hm) (by simpa using hr) hs
      unfold yaOcr
      rw [this, if_neg (by omega)]
  · intro hall r4 hr4
    have hparsed : (yaOcr resps).1 = YaExit.parsed r4 := by
      unfold yaOcr
      exact yaLoop_exhaust resps 5 0 101 none r4 (by omega)
        (fun m hm => by simpa using hall m hm) (by simpa using hr4)
    refine ⟨hparsed, ?_⟩
    intro j hbody
    unfold yaOcrImage
    dsimp only
    rw [hparsed]
    dsimp only
    rw [hbody]
  · intro j hj hall hr
    have := yaLoop_transport resps j 5 0 101 none hj
      (fun m hm => by simpa using hall m hm) (by simpa using hr)
    exact this

/-- C2, witness: the main client returns `"[error 503]"` at once for a 503,
and the variant client, fed two 429s then a 200, stops at the 200 after the
backoff sleeps `[101, 202]`. -/
theorem c2_witness :
    (ocrImage ⟨some "t", none, "fid", 500, (fun _ => 0),
        HttpAttempt.ok 503 none⟩).1 = "[error 503]"
    ∧ (yaOcr (fun i => if i < 2 then some ⟨429, none⟩ else some ⟨200, none⟩)).1
        = YaExit.parsed ⟨200, none⟩
    ∧ (yaOcr (fun i => if i < 2 then some ⟨429, none⟩ else some ⟨200, none⟩)).2
        = [101, 202] := by
  refine ⟨?_, ?_, ?_⟩
  · exact ((c2_retry_policy
      ⟨some "t", none, "fid", 500, (fun _ => 0), HttpAttempt.ok 503 none⟩
      (fun _ => none)).1 (by decide) (by decide)).1 503 none rfl (by decide)
  · exact ((c2_retry_policy
      ⟨some "t", none, "fid", 500, (fun _ => 0), HttpAttempt.ok 503 none⟩
      (fun i => if i < 2 then some ⟨429, none⟩ else some ⟨200, none⟩)).2.2.2.1
      2 ⟨200, none⟩ (by decide) (by decide) (by decide) (by decide)).2 rfl
  · have h := (c2_retry_policy
      ⟨some "t", none, "fid", 500, (fun _ => 0), HttpAttempt.ok 503 none⟩
      (fun i => if i < 2 then some ⟨429, none⟩ else some ⟨200, none⟩)).2.1
    rw [h]
    decide

/-! ## Claim C3 — size-reduction loop -/

theorem reduceQuality_spec (enc : Nat → Nat) :
    ∀ q, 30 ≤ q → (q - 30) % 5 = 0 →
      (enc (reduceQuality enc q) ≤ 1000000 ∨ reduceQuality enc q = 30)
      ∧ 30 ≤ reduceQuality enc q ∧ reduceQuality enc q ≤ q
      ∧ (q - reduceQuality enc q) % 5 = 0
      ∧ (∀ r, reduceQuality enc q < r → r ≤ q → (q - r) % 5 = 0 →
          1000000 < enc r ∧ 30 < r) := by
  intro q
  induction q using Nat.strong_induction_on with
  | _ q ih =>
    intro h30 hmod
    unfold reduceQuality
    split_ifs with hc
    · refine ⟨?_, h30, le_refl _, by omega, ?_⟩
      · rcases hc with hc | hc
        · exact Or.inl hc
        · exact Or.inr (by omega)
      · intro r hr1 hr2 _
        omega
    · simp only [not_or, not_le] at hc
      have hq35 : 35 ≤ q := by omega
      obtain ⟨ha, hb, hle, hd, he⟩ :=
        ih (q - 5) (by omega) (by omega) (by omega)
      refine ⟨ha, hb, by omega, by omega, ?_⟩
      intro r hr1 hr2 hrmod
      by_cases hrq : r ≤ q - 5
      · exact he r hr1 hrq (by omega)
      · have : r = q := by omega
        subst this
        exact ⟨by omega, by omega⟩

/-- C3: for every encoder, the re-encoding loop started at quality 85 stops at
the first quality in the chain 85, 80, … at which the encoded size fits in
1,000,000 bytes or the floor 30 is reached: the final quality satisfies the
stop condition, lies in the chain (between 30 and 85, a multiple of 5 below
85), every strictly larger chain quality was tried and failed both conditions,
and the number of quality decrements is at most 11 (so the loop terminates,
with at most 12 encodes). -/
theorem c3_size_reduction_loop (enc : Nat → Nat) :
    (enc (reduceQuality enc 85) ≤ 1000000 ∨ reduceQuality enc 85 = 30)
    ∧ 30 ≤ reduceQuality enc 85 ∧ reduceQuality enc 85 ≤ 85
    ∧ (85 - reduceQuality enc 85) % 5 = 0
    ∧ (85 - reduceQuality enc 85) / 5 ≤ 11
    ∧ (∀ r, reduceQuality enc 85 < r → r ≤ 85 → (85 - r) % 5 = 0 →
        1000000 < enc r ∧ 30 < r) := by
  obtain ⟨h1, h2, h3, h4, h5⟩ := reduceQuality_spec enc 85 (by norm_num) (by norm_num)
  exact ⟨h1, h2, h3, h4, by omega, h5⟩

/-- C3, witness: an image that encodes to 2,000,000 bytes at every quality
drives the loop to the floor 30, and quality 35 (strictly above the result)
was tried and exceeded the ceiling. -/
theorem c3_witness :
    reduceQuality (fun _ => 2000000) 85 = 30 ∧ 1000000 < 2000000 ∧ 30 < 35 := by
  have hr : reduceQuality (fun _ => 2000000) 85 = 30 := by
    simp [reduceQuality]
  have h := (c3_size_reduction_loop (fun _ => 2000000)).2.2.2.2.2 35
  rw [hr] at h
  have h' := h (by norm_num) (by norm_num) (by norm_num)
  exact ⟨hr, h'.1, h'.2⟩

/-! ## Claim C5 — one result per page, in order -/

theorem processPages_length (ocr : α → String) :
    ∀ (l : List α) (n : Nat), (processPages ocr l n).1.length = l.length := by
  intro l
  induction l with
  | nil => intro n; simp [processPages]
  | cons a t ih => intro n; simp [processPages, ih (n + 1)]

theorem processPages_texts_get (ocr : α → String) :
    ∀ (l : List α) (n i : Nat),
      (processPages ocr l n).1[i]? =
        (l[i]?).map (fun img => if ocr img = "" then "[no text]" else ocr img) := by
  intro l
  induction l with
  | nil => intro n i; simp [processPages]
  | cons a t ih =>
    intro n i
    cases i with
    | zero => simp [processPages]
    | succ i => simpa [processPages] using ih (n + 1) i

theorem processPages_ne_empty (ocr : α → String) :
    ∀ (l : List α) (n : Nat) (s : String),
      s ∈ (processPages ocr l n).1 → s ≠ "" := by
  intro l
  induction l with
  | nil => intro n s h; simp [processPages] at h
  | cons a t ih =>
    intro n s h
    simp only [processPages, List.mem_cons] at h
    rcases h with h | h
    · subst h
      split_ifs with he
      · decide
      · exact he
    · exact ih (n + 1) s h

theorem processPages_doc_get (ocr : α → String) :
    ∀ (l : List α) (n i : Nat),
      (processPages ocr l n).2[2 * i]? =
        (l[i]?).map (fun _ => DocItem.heading 2 ("Page " ++ toString (n + i)))
      ∧ (processPages ocr l n).2[2 * i + 1]? =
        ((processPages ocr l n).1[i]?).map DocItem.para := by
  intro l
  induction l with
  | nil => intro n i; simp [processPages]
  | cons a t ih =>
    intro n i
    cases i with
    | zero => simp [processPages]
    | succ i =>
      have h2 : 2 * (i + 1) = 2 * i + 1 + 1 := by omega
      have hn : n + 1 + i = n + (i + 1) := by omega
      constructor
      · rw [h2]
        simp only [processPages, List.getElem?_cons_succ]
        rw [(ih (n + 1) i).1, hn]
      · rw [h2]
        simp only [processPages, List.getElem?_cons_succ]
        exact (ih (n + 1) i).2

theorem pageRows_get (name : String) :
    ∀ (ts : List String) (n i : Nat),
      (pageRows name ts n)[i]? =
        (ts[i]?).map (fun t => [name, toString (n + i), t]) := by
  intro ts
  induction ts with
  | nil => intro n i; simp [pageRows]
  | cons t ts ih =>
    intro n i
    cases i with
    | zero => simp [pageRows]
    | succ i =>
      simp only [pageRows, List.getElem?_cons_succ]
      rw [ih (n + 1) i, show n + 1 + i = n + (i + 1) by omega]

theorem mergedPages_doc_get :
    ∀ (ts : List String) (n i : Nat),
      (mergedPages ts n).1[2 * i]? =
        (ts[i]?).map (fun _ => DocItem.heading 2 ("Page " ++ toString (n + i)))
      ∧ (mergedPages ts n).1[2 * i + 1]? = (ts[i]?).map DocItem.para := by
  intro ts
  induction ts with
  | nil => intro n i; simp [mergedPages]
  | cons t ts ih =>
    intro n i
    cases i with
    | zero => simp [mergedPages]
    | succ i =>
      have h2 : 2 * (i + 1) = 2 * i + 1 + 1 := by omega
      have hn : n + 1 + i = n + (i + 1) := by omega
      constructor
      · rw [h2]
        simp only [mergedPages, List.getElem?_cons_succ]
        rw [(ih (n + 1) i).1, hn]
      · rw [h2]
        simp only [mergedPages, List.getElem?_cons_succ]
        exact (ih (n + 1) i).2

/-- C5: `process_file` yields exactly one text per page image, never dropping
a page: the text list has one entry per page, the i-th entry is the OCR result
of the i-th page (the `"[no text]"` marker when that result is empty — OCR
failures are themselves marker strings, not exceptions), no entry is the empty
string, and rasterization order is preserved in the per-file document
(headings "Page 1", "Page 2", … each followed by that page's paragraph) as
well as in the merged CSV rows and the merged document items built from the
same list. -/
theorem c5_page_per_result (images : List α) (ocr : α → String)
    (name : String) :
    (processFile images ocr).1.length = images.length
    ∧ (∀ i : Nat, (processFile images ocr).1[i]? =
        (images[i]?).map (fun im => if ocr im = "" then "[no text]" else ocr im))
    ∧ (∀ s, s ∈ (processFile images ocr).1 → s ≠ "")
    ∧ (∀ i : Nat, (processFile images ocr).2[2 * i]? =
          (images[i]?).map
            (fun _ => DocItem.heading 2 ("Page " ++ toString (i + 1)))
        ∧ (processFile images ocr).2[2 * i + 1]? =
          ((processFile images ocr).1[i]?).map DocItem.para)
    ∧ (∀ i : Nat, (pageRows name (processFile images ocr).1 1)[i]? =
        ((processFile images ocr).1[i]?).map
          (fun t => [name, toString (i + 1), t]))
    ∧ (∀ i : Nat, (mergedPages (processFile images ocr).1 1).1[2 * i]? =
          ((processFile images ocr).1[i]?).map
            (fun _ => DocItem.heading 2 ("Page " ++ toString (i + 1)))
        ∧ (mergedPages (processFile images ocr).1 1).1[2 * i + 1]? =
          ((processFile images ocr).1[i]?).map DocItem.para) := by
  have hone : ∀ i : Nat, (1 : Nat) + i = i + 1 := fun i => by omega
  refine ⟨processPages_length ocr images 1, ?_, ?_, ?_, ?_, ?_⟩
  · intro i
    exact processPages_texts_get ocr images 1 i
  · intro s hs
    exact processPages_ne_empty ocr images 1 s hs
  · intro i
    have h := processPages_doc_get ocr images 1 i
    rw [hone i] at h
    exact h
  · intro i
    rw [← hone i]
    exact pageRows_get name (processFile images ocr).1 1 i
  · intro i
    have h := mergedPages_doc_get (processFile images ocr).1 1 i
    rw [hone i] at h
    exact h

/-- C5, witness: a two-page file with a failing first page keeps both pages,
the first as the `"[no text]"` marker, and that marker is not the empty
string. -/
theorem c5_witness :
    "[no text]" ≠ ""
    ∧ (processFile ["p1", "p2"] (fun s => if s == "p1" then "" else "T")).1
        = ["[no text]", "T"] := by
  refine ⟨(c5_page_per_result ["p1", "p2"]
    (fun s => if s == "p1" then "" else "T") "f").2.2.1 "[no text]" (by decide),
    by decide⟩

/-! ## Claim C6 — merged CSV shape -/

theorem pageRows_length (name : String) :
    ∀ (ts : List String) (n : Nat), (pageRows name ts n).length = ts.length := by
  intro ts
  induction ts with
  | nil => intro n; simp [pageRows]
  | cons t ts ih => intro n; simp [pageRows, ih (n + 1)]

theorem csvDataRows_eq :
    ∀ rs : List (String × List String),
      csvDataRows rs = (rs.map (fun p => pageRows p.1 p.2 1)).flatten := by
  intro rs
  induction rs with
  | nil => simp [csvDataRows]
  | cons p rest ih =>
    obtain ⟨name, texts⟩ := p
    simp [csvDataRows, ih]

/-- C6: the merged CSV consists of the header row `["file", "page", "text"]`
followed by exactly one data row per page across all files, in file order then
page order; each data row is `[file name, 1-based page number, text]`; and for
two files of 2 pages and 1 page the writer emits exactly 3 data rows. -/
theorem c6_merged_csv (rs : List (String × List String))
    (f1 f2 x y z : String) :
    (saveCombinedCsv rs)[0]? = some ["file", "page", "text"]
    ∧ (saveCombinedCsv rs).length = 1 + (rs.map (fun p => p.2.length)).sum
    ∧ csvDataRows rs = (rs.map (fun p => pageRows p.1 p.2 1)).flatten
    ∧ (∀ (name : String) (texts : List String) (i : Nat),
        (pageRows name texts 1)[i]? =
          (texts[i]?).map (fun t => [name, toString (i + 1), t]))
    ∧ saveCombinedCsv [(f1, [x, y]), (f2, [z])] =
        [["file", "page", "text"], [f1, "1", x], [f1, "2", y], [f2, "1", z]] := by
  refine ⟨by simp [saveCombinedCsv], ?_, csvDataRows_eq rs, ?_, ?_⟩
  · have hlen : ∀ rs' : List (String × List String),
        (csvDataRows rs').length = (rs'.map (fun p => p.2.length)).sum := by
      intro rs'
      induction rs' with
      | nil => simp [csvDataRows]
      | cons p rest ih =>
        obtain ⟨name, texts⟩ := p
        simp [csvDataRows, pageRows_length, ih]
    simp [saveCombinedCsv, hlen rs, Nat.add_comm]
  · intro name texts i
    rw [pageRows_get name texts 1 i, show (1 : Nat) + i = i + 1 by omega]
  · rfl

/-! ## Claim C10 — no rewrite of small files -/

/-- C10: when the file's size is at most 1,000,000 bytes, `ocr_image` leaves
the bytes on disk unchanged — the size-reduction branch only rewrites the file
when the size strictly exceeds 1,000,000. -/
theorem c10_small_file_untouched (inp : OcrInput) (h : inp.fileSize ≤ 1000000) :
    (ocrImage inp).2 = inp.fileSize := by
  obtain ⟨iam, api, fid, sz, enc, att⟩ := inp
  dsimp only at h ⊢
  have hsz : ¬ (sz > 1000000) := by omega
  unfold ocrImage
  dsimp only
  simp only [if_neg hsz]
  split_ifs with hmode hfid
  · rfl
  · rfl
  · cases att with
    | fail => rfl
    | ok st b =>
      dsimp only
      split_ifs with h200
      · rfl
      · cases b <;> rfl

/-! ## Claim C4 — enhancer pipeline -/

/-- C4: `preprocess_image` applies exactly the source pipeline in order.
Under the documented behavior of the PIL primitives (resize returns the
requested dimensions; `convert("L")` yields mode `"L"` at unchanged
dimensions; the enhancers preserve mode and dimensions), the upscale ×2 with
the LANCZOS filter happens exactly when the longest side is under 1000 px;
the result of the tonal stages is grayscale mode `"L"` and equals sharpness 2.0
applied after contrast 1.8 applied after the grayscale conversion; the final
image maps each pixel below 140 to 0 and the rest to 255, staying in mode
`"L"`; and the output is the JPEG encoding (quality 90) written to
`tmp_dir/<stem>.jpg`. -/
theorem c4_enhancer_pipeline (ops : PILOps) (img : PILImage)
    (tmpDir stem : String)
    (hresize : ∀ im w h, (ops.resizeLanczos im w h).width = w ∧
      (ops.resizeLanczos im w h).height = h)
    (hconv : ∀ im, (ops.convertL im).mode = "L" ∧
      (ops.convertL im).width = im.width ∧ (ops.convertL im).height = im.height)
    (hcontrast : ∀ im f, (ops.enhanceContrast im f).mode = im.mode ∧
      (ops.enhanceContrast im f).width = im.width ∧
      (ops.enhanceContrast im f).height = im.height)
    (hsharp : ∀ im f, (ops.enhanceSharpness im f).mode = im.mode ∧
      (ops.enhanceSharpness im f).width = im.width ∧
      (ops.enhanceSharpness im f).height = im.height) :
    (max img.width img.height < 1000 →
      ppResized ops img = ops.resizeLanczos img (img.width * 2) (img.height * 2)
      ∧ (ppFinal ops img).width = img.width * 2
      ∧ (ppFinal ops img).height = img.height * 2)
    ∧ (¬ max img.width img.height < 1000 →
      ppResized ops img = img
      ∧ (ppFinal ops img).width = img.width
      ∧ (ppFinal ops img).height = img.height)
    ∧ (ppEnhanced ops img).mode = "L"
    ∧ (ppFinal ops img).mode = "L"
    ∧ ppEnhanced ops img =
        ops.enhanceSharpness
          (ops.enhanceContrast (ops.convertL (ppResized ops img)) (1.8 : ℚ))
          (2 : ℚ)
    ∧ (∀ x y, (ppFinal ops img).px x y =
        if (ppEnhanced ops img).px x y < 140 then 0 else 255)
    ∧ (∀ x y, (ppFinal ops img).px x y = 0 ∨ (ppFinal ops img).px x y = 255)
    ∧ (preprocessImage ops img tmpDir stem).1 = tmpDir ++ "/" ++ stem ++ ".jpg"
    ∧ (preprocessImage ops img tmpDir stem).2 =
        ops.jpegEncode (ppFinal ops img) 90 := by
  have hmode : (ppEnhanced ops img).mode = "L" := by
    unfold ppEnhanced
    rw [(hsharp _ _).1, (hcontrast _ _).1, (hconv _).1]
  have hdims : (ppFinal ops img).width = (ppResized ops img).width ∧
      (ppFinal ops img).height = (ppResized ops img).height := by
    unfold ppFinal ppEnhanced pointL
    constructor
    · dsimp only
      rw [(hsharp _ _).2.1, (hcontrast _ _).2.1, (hconv _).2.1]
    · dsimp only
      rw [(hsharp _ _).2.2, (hcontrast _ _).2.2, (hconv _).2.2]
  refine ⟨?_, ?_, hmode, rfl, rfl, fun x y => rfl, ?_, rfl, rfl⟩
  · intro hlt
    have hres : ppResized ops img =
        ops.resizeLanczos img (img.width * 2) (img.height * 2) := by
      unfold ppResized
      rw [if_pos hlt]
    refine ⟨hres, ?_, ?_⟩
    · rw [hdims.1, hres, (hresize _ _ _).1]
    · rw [hdims.2, hres, (hresize _ _ _).2]
  · intro hge
    have hres : ppResized ops img = img := by
      unfold ppResized
      rw [if_neg hge]
    exact ⟨hres, by rw [hdims.1, hres], by rw [hdims.2, hres]⟩
  · intro x y
    unfold ppFinal pointL
    dsimp only
    split_ifs <;> simp

/-- C4, witness: with identity-style stand-ins for the PIL primitives
(satisfying the documented shape properties) and a 10×20 image of constant
luminance 100, the pipeline upscales to 20×40, ends in mode `"L"`, maps the
pixel to 0 (100 < 140), and writes `result/tmp/page_1.jpg`. -/
theorem c4_witness :
    (ppFinal
        ⟨fun im w h => ⟨w, h, im.mode, im.px⟩,
         fun im => ⟨im.width, im.height, "L", im.px⟩,
         fun im _ => im, fun im _ => im, fun _ _ => []⟩
        ⟨10, 20, "RGB", fun _ _ => 100⟩).mode = "L"
    ∧ (ppFinal
        ⟨fun im w h => ⟨w, h, im.mode, im.px⟩,
         fun im => ⟨im.width, im.height, "L", im.px⟩,
         fun im _ => im, fun im _ => im, fun _ _ => []⟩
        ⟨10, 20, "RGB", fun _ _ => 100⟩).width = 20
    ∧ (ppFinal
        ⟨fun im w h => ⟨w, h, im.mode, im.px⟩,
         fun im => ⟨im.width, im.height, "L", im.px⟩,
         fun im _ => im, fun im _ => im, fun _ _ => []⟩
        ⟨10, 20, "RGB", fun _ _ => 100⟩).px 0 0 = 0
    ∧ (preprocessImage
        ⟨fun im w h => ⟨w, h, im.mode, im.px⟩,
         fun im => ⟨im.width, im.height, "L", im.px⟩,
         fun im _ => im, fun im _ => im, fun _ _ => []⟩
        ⟨10, 20, "RGB", fun _ _ => 100⟩ "result/tmp" "page_1").1
      = "result/tmp/page_1.jpg" := by
  have h := c4_enhancer_pipeline
    ⟨fun im w h => ⟨w, h, im.mode, im.px⟩,
     fun im => ⟨im.width, im.height, "L", im.px⟩,
     fun im _ => im, fun im _ => im, fun _ _ => []⟩
    ⟨10, 20, "RGB", fun _ _ => 100⟩ "result/tmp" "page_1"
    (fun im w hh => ⟨rfl, rfl⟩)
    (fun im => ⟨rfl, rfl, rfl⟩)
    (fun im f => ⟨rfl, rfl, rfl⟩)
    (fun im f => ⟨rfl, rfl, rfl⟩)
  refine ⟨h.2.2.2.1, (h.1 (by norm_num)).2.1, ?_, h.2.2.2.2.2.2.2.1⟩
  have hx := h.2.2.2.2.2.1 0 0
  rw [hx]
  rfl

/-- C10, witness: a 12,345-byte file is left at 12,345 bytes. -/
theorem c10_witness :
    (ocrImage ⟨some "t", none, "fid", 12345, (fun _ => 0),
        HttpAttempt.ok 200 none⟩).2 = 12345 :=
  c10_small_file_untouched _ (by norm_num)


/-! ## Claim C7 — input locator -/

/-- C7: `find_input_files` returns the single file for an existing file path;
for an existing directory it returns the recursive enumeration filtered by the
fixed allow-list with case-insensitive extension matching; for a non-existing
single-component path the working-directory tree is searched and the first
entry of that exact name is used (no match is a not-found error); and a
non-existing multi-component path fails with a not-found error without any
tree search (for every file system, whatever matches its tree holds). -/
theorem c7_input_locator (fs : FS) (p : FPath) :
    (fs.existsPath p = true → fs.isFile p = true →
        findInputFiles fs p = Except.ok [p])
    ∧ (fs.existsPath p = true → fs.isFile p = false →
        findInputFiles fs p = Except.ok (((fs.underDir p).filter (fun e =>
            allowedExts.contains
              (pyLower (pySuffix ((e.1.getLast?).getD ""))))).map (fun e => e.1))
        ∧ ∀ q : FPath,
            q ∈ (((fs.underDir p).filter (fun e =>
              allowedExts.contains
                (pyLower (pySuffix ((e.1.getLast?).getD ""))))).map (fun e => e.1))
            ↔ ∃ b : Bool, (q, b) ∈ fs.entries ∧ strictUnder p q = true ∧
                allowedExts.contains
                  (pyLower (pySuffix ((q.getLast?).getD ""))) = true)
    ∧ (fs.existsPath p = false → p.length = 1 →
        (∀ (m : FPath) (ms : List FPath),
            fs.rglobName (String.intercalate "" p) = m :: ms →
            resolveInput fs p = Except.ok m)
        ∧ (fs.rglobName (String.intercalate "" p) = [] →
            findInputFiles fs p = Except.error "Input path not found"))
    ∧ (fs.existsPath p = false → p.length ≠ 1 →
        findInputFiles fs p = Except.error "Input path not found")
    ∧ (pyLower (pySuffix "x.JPG") = ".jpg"
        ∧ allowedExts.contains ".jpg" = true
        ∧ allowedExts.contains (pyLower (pySuffix "x.txt")) = false) := by
  refine ⟨?_, ?_, ?_, ?_, by decide⟩
  · intro hex hfile
    have hres : resolveInput fs p = Except.ok p := by
      unfold resolveInput
      rw [if_pos hex]
    unfold findInputFiles
    rw [hres]
    dsimp only
    rw [if_pos hfile]
  · intro hex hfile
    have hres : resolveInput fs p = Except.ok p := by
      unfold resolveInput
      rw [if_pos hex]
    constructor
    · unfold findInputFiles
      rw [hres]
      dsimp only
      rw [if_neg (by simp [hfile])]
    · intro q
      simp only [List.mem_map, List.mem_filter, FS.underDir]
      constructor
      · rintro ⟨e, ⟨⟨he, hu⟩, ha⟩, rfl⟩
        exact ⟨e.2, he, hu, ha⟩
      · rintro ⟨b, hb, hu, ha⟩
        exact ⟨(q, b), ⟨⟨hb, hu⟩, ha⟩, rfl⟩
  · intro hex hlen
    constructor
    · intro m ms hm
      unfold resolveInput
      rw [if_neg (by simp [hex]), if_pos hlen, hm]
    · intro hm
      have hres : resolveInput fs p = Except.error "Input path not found" := by
        unfold resolveInput
        rw [if_neg (by simp [hex]), if_pos hlen, hm]
      unfold findInputFiles
      rw [hres]
  · intro hex hlen
    have hres : resolveInput fs p = Except.error "Input path not found" := by
      unfold resolveInput
      rw [if_neg (by simp [hex]), if_neg hlen]
    unfold findInputFiles
    rw [hres]

/-- A small concrete file tree: a directory `dir` holding an allowed image
with an upper-case extension, a disallowed text file, and an allowed PDF in a
subdirectory. -/
def fsW : FS :=
  ⟨[(["dir"], false), (["dir", "a.JPG"], true), (["dir", "b.txt"], true),
    (["dir", "sub"], false), (["dir", "sub", "c.pdf"], true)], ["cw"]⟩

/-- C7, witness: on the concrete tree the locator keeps `dir/a.JPG`
(upper-case extension) and `dir/sub/c.pdf`, and drops `dir/b.txt` and the
directory `dir/sub`. -/
theorem c7_witness :
    findInputFiles fsW ["dir"] =
      Except.ok [["dir", "a.JPG"], ["dir", "sub", "c.pdf"]] := by
  have h := ((c7_input_locator fsW ["dir"]).2.1 (by decide) (by decide)).1
  rw [h]
  rfl

/-! ## Claim C8 — batch isolation -/

theorem batchLoop_attempts (proc : FPath → Except String (List String))
    (merge : Bool) : ∀ files, (batchLoop proc merge files).1 = files := by
  intro files
  induction files with
  | nil => rfl
  | cons f rest ih =>
    unfold batchLoop
    cases proc f <;> simp [ih]

theorem mainRun_cases (creds : Option String × Option String) (fs : FS)
    (ip : FPath) (fid : String) (merge : Bool)
    (proc : FPath → Except String (List String))
    (h : creds ≠ (none, none)) :
    mainRun creds fs ip fid merge proc =
      match findInputFiles fs ip with
      | Except.error e => RunOutcome.fatalConfig e
      | Except.ok fls =>
        if fls = [] then RunOutcome.fatalConfig "No input files found"
        else if fid = "" then RunOutcome.fatalConfig "Folder ID is required"
        else RunOutcome.completed (batchLoop proc merge fls).1
               (batchLoop proc merge fls).2 := by
  obtain ⟨oi, oa⟩ := creds
  cases oi <;> cases oa <;> first | (exact absurd rfl h) | rfl

/-- C8: the batch never aborts because one file failed — the loop attempts
every file no matter which per-file runs raise, a configuration-correct run
always completes with exactly the resolved file list attempted, a fatal abort
can only stem from missing credentials, an unresolvable input path, an empty
file list, or a missing folder id (all checked before any file-level work),
and changing the per-file outcomes can never turn a completed run into an
abort or change which files are attempted. -/
theorem c8_batch_isolation (creds : Option String × Option String) (fs : FS)
    (ip : FPath) (fid : String) (merge : Bool)
    (proc proc' : FPath → Except String (List String)) :
    (∀ files : List FPath, (batchLoop proc merge files).1 = files)
    ∧ (∀ files : List FPath, creds ≠ (none, none) →
        findInputFiles fs ip = Except.ok files → files ≠ [] → fid ≠ "" →
        mainRun creds fs ip fid merge proc =
          RunOutcome.completed files (batchLoop proc merge files).2)
    ∧ (∀ msg, mainRun creds fs ip fid merge proc = RunOutcome.fatalConfig msg →
        creds = (none, none) ∨ (∃ e, findInputFiles fs ip = Except.error e)
        ∨ findInputFiles fs ip = Except.ok [] ∨ fid = "")
    ∧ (∀ att comb,
        mainRun creds fs ip fid merge proc = RunOutcome.completed att comb →
        ∃ comb', mainRun creds fs ip fid merge proc' =
          RunOutcome.completed att comb') := by
  refine ⟨batchLoop_attempts proc merge, ?_, ?_, ?_⟩
  · intro files hcreds hfiles hne hfid
    rw [mainRun_cases creds fs ip fid merge proc hcreds, hfiles]
    dsimp only
    rw [if_neg hne, if_neg hfid, batchLoop_attempts proc merge files]
  · intro msg hm
    by_cases hc : creds = (none, none)
    · exact Or.inl hc
    · rw [mainRun_cases creds fs ip fid merge proc hc] at hm
      cases hf : findInputFiles fs ip with
      | error e => exact Or.inr (Or.inl ⟨e, rfl⟩)
      | ok fls =>
        rw [hf] at hm
        dsimp only at hm
        split_ifs at hm with h1 h2
        · subst h1
          exact Or.inr (Or.inr (Or.inl rfl))
        · exact Or.inr (Or.inr (Or.inr h2))
  · intro att comb hm
    by_cases hc : creds = (none, none)
    · rw [hc] at hm
      simp [mainRun] at hm
    · rw [mainRun_cases creds fs ip fid merge proc hc] at hm
      cases hf : findInputFiles fs ip with
      | error e =>
        rw [hf] at hm
        simp at hm
      | ok fls =>
        rw [hf] at hm
        dsimp only at hm
        split_ifs at hm with h1 h2
        obtain ⟨rfl, rfl⟩ := hm
        refine ⟨(batchLoop proc' merge fls).2, ?_⟩
        rw [mainRun_cases creds fs ip fid merge proc' hc, hf]
        dsimp only
        rw [if_neg h1, if_neg h2, batchLoop_attempts proc' merge fls,
          batchLoop_attempts proc merge fls]

/-- The per-file worker used by the C8 witness: it raises on `dir/a.JPG` and
succeeds on everything else. -/
def procW : FPath → Except String (List String) :=
  fun f => if f = ["dir", "a.JPG"] then Except.error "boom"
           else Except.ok ["txt"]

/-- C8, witness: with one of two files raising, the run still completes, both
files are attempted, and the merge keeps the surviving file's result. -/
theorem c8_witness :
    mainRun (some "t", none) fsW ["dir"] "fid" true procW =
      RunOutcome.completed [["dir", "a.JPG"], ["dir", "sub", "c.pdf"]]
        [(["dir", "sub", "c.pdf"], ["txt"])] := by
  have hfind : findInputFiles fsW ["dir"] =
      Except.ok [["dir", "a.JPG"], ["dir", "sub", "c.pdf"]] := rfl
  have h := (c8_batch_isolation (some "t", none) fsW ["dir"] "fid" true
      procW procW).2.1 [["dir", "a.JPG"], ["dir", "sub", "c.pdf"]]
      (by decide) hfind (by decide) (by decide)
  rw [h]
  rfl

/-! ## Claim C9 — credential resolution and the IAM exchange helper -/

/-- C9, counterexample: `raise_for_status` only raises on 4xx/5xx, so a
non-200, non-error status whose body carries `iamToken` makes `get_iam_token`
return that token — not the empty string the claim requires for every non-200
status. -/
theorem c9_counterexample :
    getIamToken (some "oauth") ""
      (IamAttempt.resp 201 (some [("iamToken", "tok")])) = "tok"
    ∧ "tok" ≠ "" :=
  ⟨rfl, by decide⟩

/-- C9 (amended): the OCR client uses exactly one credential — at most one
`Authorization` header is built, a truthy IAM token always wins (even when an
API key is also present), the API key is used only when the IAM token is
absent — and with neither credential `ocr_image` returns the configuration
error marker with the file untouched, for every possible network outcome (so
before any network call).  The exchange helper returns `""` rather than
raising when the effective OAuth token is empty (no request is made), on a
transport error, on any 4xx/5xx status, and on a malformed body; on a
non-error status whose body carries `iamToken` it returns that token. -/
theorem c9_credential_resolution (iam api : Option String) (inp : OcrInput)
    (oauth : Option String) (env : String) (att : IamAttempt) :
    ((buildAuthHeaders iam api).1.filter
        (fun h => h.1 == "Authorization")).length ≤ 1
    ∧ (optTruthy iam = true →
        buildAuthHeaders iam api =
          ([("Authorization", "Bearer " ++ iam.getD ""),
            ("Content-Type", "application/json")], "iam"))
    ∧ (optTruthy iam = false → optTruthy api = true →
        buildAuthHeaders iam api =
          ([("Authorization", "Api-Key " ++ api.getD ""),
            ("Content-Type", "application/json")], "api_key"))
    ∧ (optTruthy inp.iamToken = false → optTruthy inp.apiKey = false →
        ocrImage inp = ("[auth error: no credentials]", inp.fileSize))
    ∧ (effectiveOauth oauth env = "" → getIamToken oauth env att = "")
    ∧ (getIamToken oauth env IamAttempt.netError = "")
    ∧ (∀ st body, 400 ≤ st → st < 600 →
        getIamToken oauth env (IamAttempt.resp st body) = "")
    ∧ (∀ st, getIamToken oauth env (IamAttempt.resp st none) = "")
    ∧ (∀ st kvs t, ¬(400 ≤ st ∧ st < 600) → effectiveOauth oauth env ≠ "" →
        lookupStr kvs "iamToken" = some t →
        getIamToken oauth env (IamAttempt.resp st (some kvs)) = t) := by
  refine ⟨?_, ?_, ?_, ?_, ?_, ?_, ?_, ?_, ?_⟩
  · unfold buildAuthHeaders
    split_ifs <;> simp
  · intro h
    unfold buildAuthHeaders
    rw [if_pos h]
  · intro h1 h2
    unfold buildAuthHeaders
    rw [if_neg (by simp [h1]), if_pos h2]
  · intro h1 h2
    have hbh : buildAuthHeaders inp.iamToken inp.apiKey = ([], "none") := by
      unfold buildAuthHeaders
      rw [if_neg (by simp [h1]), if_neg (by simp [h2])]
    unfold ocrImage
    dsimp only
    rw [hbh]
    dsimp only
    rw [if_pos rfl]
  · intro h
    unfold getIamToken
    dsimp only
    rw [if_pos h]
  · unfold getIamToken
    dsimp only
    split_ifs <;> rfl
  · intro st body h1 h2
    unfold getIamToken
    dsimp only
    split_ifs with ht hc
    · rfl
    · rfl
    · exact absurd ⟨h1, h2⟩ hc
  · intro st
    unfold getIamToken
    dsimp only
    split_ifs <;> rfl
  · intro st kvs t hcond htok hlookup
    unfold getIamToken
    dsimp only
    rw [if_neg htok, if_neg hcond, hlookup]
    rfl

/-- C9, witness: with both credentials present only the Bearer header is
built; with neither, `ocr_image` fails with the configuration marker before
any request; and a 404 exchange response yields the empty string even though
its body carries a token. -/
theorem c9_witness :
    buildAuthHeaders (some "I") (some "K") =
      ([("Authorization", "Bearer I"), ("Content-Type", "application/json")],
        "iam")
    ∧ ocrImage ⟨none, none, "fid", 7, (fun _ => 0), HttpAttempt.fail⟩ =
        ("[auth error: no credentials]", 7)
    ∧ getIamToken (some "o") ""
        (IamAttempt.resp 404 (some [("iamToken", "t")])) = "" := by
  refine ⟨?_, ?_, ?_⟩
  · exact (c9_credential_resolution (some "I") (some "K")
      ⟨none, none, "", 0, (fun _ => 0), HttpAttempt.fail⟩
      none "" IamAttempt.netError).2.1 (by decide)
  · exact (c9_credential_resolution (some "I") (some "K")
      ⟨none, none, "fid", 7, (fun _ => 0), HttpAttempt.fail⟩
      none "" IamAttempt.netError).2.2.2.1 (by decide) (by decide)
  · exact (c9_credential_resolution (some "I") (some "K")
      ⟨none, none, "", 0, (fun _ => 0), HttpAttempt.fail⟩
      (some "o") "" (IamAttempt.resp 404 (some [("iamToken", "t")]))).2.2.2.2.2.2.1
      404 (some [("iamToken", "t")]) (by norm_num) (by norm_num)
